import Mathlib

/-!
Shallow embedding of the room-state synchronization engine of
`ddd-dice-sync` (the pull/polling variant extended with player
management in `netlify/functions/sync.js`, plus the polling loop of the
browser clients in `sync-client.js`).

JavaScript `Map` objects are modelled as association lists in insertion
order (`Map.set` replaces in place or appends, `Map.delete` removes the
entry), timestamps (`Date` values) as integers (epoch milliseconds), and
the `pollDelay` float of the client as a rational number.
-/

/-- A `ParticipantRecord`: one entry of `room.participants`. -/
structure Participant where
  sessionId : String
  userAgent : String
  ip : String
  joinedAt : Int
  lastSeen : Int
deriving DecidableEq

/-- A `PlayerRecord`. `name` stands for the caller-supplied attributes that
the server spreads through unchanged; `isActive`, `sessionId` and
`lastUpdated` are the fields the server reads or stamps. -/
structure Player where
  name : String
  isActive : Bool
  sessionId : String
  lastUpdated : Int
deriving DecidableEq

/-- The caller-supplied timer fields (`isRunning`, `remainingTime`,
`duration`, `startTime`). -/
structure TimerFields where
  isRunning : Bool
  remainingTime : Int
  duration : Int
  startTime : Option Int
deriving DecidableEq

/-- `room.timerState`: the caller-supplied fields plus the provenance
stamps `lastUpdatedBy` / `lastUpdatedAt` added by the `/sync-timer`
handler (absent on the initial state). -/
structure TimerState where
  fields : TimerFields
  lastUpdatedBy : Option String
  lastUpdatedAt : Option Int
deriving DecidableEq

/-- The type-specific payload of an event of the room's message log. -/
inductive MsgPayload where
  | diceRoll (values : List Nat)
  | timerSync (state : TimerState)
  | playersUpdate (roster : List Player)
deriving DecidableEq

/-- The object passed to `addMessage` before the server stamps
`timestamp` and `id` onto it. -/
structure MsgStub where
  payload : MsgPayload
  fromSession : String
deriving DecidableEq

/-- One entry of `room.messages` (an `Event`). -/
structure Message where
  payload : MsgPayload
  fromSession : String
  timestamp : Int
  id : Int
deriving DecidableEq

/-- `Map.prototype.get` followed by extracting the value. -/
def mapGet {α : Type} (k : String) (m : List (String × α)) : Option α :=
  (m.find? (fun kv => kv.1 == k)).map (·.2)

/-- `Map.prototype.delete`: removes the entry with key `k`, keeping order. -/
def mapDelete {α : Type} (k : String) (m : List (String × α)) : List (String × α) :=
  m.filter (fun kv => !(kv.1 == k))

/-- `Map.prototype.set`: replaces in place if the key is present,
otherwise appends the new entry at the end. -/
def mapSet {α : Type} (k : String) (v : α) (m : List (String × α)) : List (String × α) :=
  if m.any (fun kv => kv.1 == k) then
    m.map (fun kv => if kv.1 == k then (k, v) else kv)
  else
    m ++ [(k, v)]

/-- The `Room` of the player-management variant of
`netlify/functions/sync.js`. -/
structure Room where
  id : String
  participants : List (String × Participant)
  currentDiceValues : Option (List Nat)
  timerState : TimerState
  players : List (String × List Player)
  messages : List Message
  createdAt : Int
  lastActivity : Int
deriving DecidableEq

/-- The `Room` constructor. -/
def Room.new (id : String) (now : Int) : Room :=
  { id := id
    participants := []
    currentDiceValues := none
    timerState := { fields := { isRunning := false, remainingTime := 0, duration := 60, startTime := none }
                    lastUpdatedBy := none, lastUpdatedAt := none }
    players := []
    messages := []
    createdAt := now
    lastActivity := now }

/-- `Room.addParticipant`. -/
def Room.addParticipant (room : Room) (sessionId userAgent ip : String) (now : Int) : Room :=
  { room with
    participants := mapSet sessionId
      { sessionId := sessionId, userAgent := userAgent, ip := ip, joinedAt := now, lastSeen := now }
      room.participants
    lastActivity := now }

/-- `Room.removeParticipant` of the player-management variant: also
deletes the session's player data. -/
def Room.removeParticipant (room : Room) (sessionId : String) (now : Int) : Room :=
  { room with
    participants := mapDelete sessionId room.participants
    players := mapDelete sessionId room.players
    lastActivity := now }

/-- `Date.now() - 5 * 60 * 1000`: the staleness cutoff used by
`getParticipantCount`. -/
def staleThreshold (now : Int) : Int := now - 5 * 60 * 1000

/-- `Room.getParticipantCount` of the player-management variant: purges
every participant whose `lastSeen` is before the 5-minute cutoff
(deleting that session's player data as well) and returns the size of
the remaining participants map, together with the mutated room. -/
def Room.getParticipantCount (room : Room) (now : Int) : Room × Nat :=
  let fiveMinutesAgo := staleThreshold now
  let staleKeys := (room.participants.filter (fun kv => decide (kv.2.lastSeen < fiveMinutesAgo))).map (·.1)
  let participants := room.participants.filter (fun kv => !decide (kv.2.lastSeen < fiveMinutesAgo))
  let players := room.players.filter (fun kv => !staleKeys.contains kv.1)
  ({ room with participants := participants, players := players }, participants.length)

/-- `Room.updateParticipant`: refreshes `lastSeen` of the given session
(and `lastActivity`) when the session is a participant; otherwise the
room is left untouched. -/
def Room.updateParticipant (room : Room) (sessionId : String) (now : Int) : Room :=
  if room.participants.any (fun kv => kv.1 == sessionId) then
    { room with
      participants := room.participants.map
        (fun kv => if kv.1 == sessionId then (kv.1, { kv.2 with lastSeen := now }) else kv)
      lastActivity := now }
  else
    room

/-- Stamping of `timestamp` and `id` done by `addMessage`. -/
def mkMessage (stub : MsgStub) (now : Int) (id : Int) : Message :=
  { payload := stub.payload, fromSession := stub.fromSession, timestamp := now, id := id }

/-- The log update inside `addMessage`: push the new entry, then
`slice(-50)` whenever the log exceeds 50 entries. -/
def pushTrim (messages : List Message) (m : Message) : List Message :=
  let pushed := messages ++ [m]
  if 50 < pushed.length then pushed.drop (pushed.length - 50) else pushed

/-- `Room.addMessage`. -/
def Room.addMessage (room : Room) (stub : MsgStub) (now : Int) (id : Int) : Room :=
  { room with messages := pushTrim room.messages (mkMessage stub now id), lastActivity := now }

/-- `Room.getRecentMessages`: without a watermark, `slice(-10)`; with a
watermark, the events strictly newer than it. (On the wire the
watermark is an ISO date string; `null`/absent is modelled by `none`.) -/
def getRecentMessages (messages : List Message) (since : Option Int) : List Message :=
  match since with
  | none => messages.drop (messages.length - 10)
  | some sinceDate => messages.filter (fun msg => decide (sinceDate < msg.timestamp))

/-- The argument the handlers pass to `Room.updatePlayerData`: the orphan
array-based `/sync-players` endpoint passes the whole `players` array,
while the live player-management handler passes one player object per
iteration of its `forEach`. -/
inductive PlayersArg where
  | arr (playersList : List Player)
  | obj (player : Player)
deriving DecidableEq

/-- `Room.updatePlayerData(sessionId, playersArray)`: deletes the
session's previous entry, and only when the argument passes the guard
`playersArray && playersArray.length > 0` stores the incoming records,
stamped with the owning session and the activation decision
`canBeActive = (activePlayersFromOtherSessions < 4) || playerData.isActive`.
A single (non-array) object has no `length` property, so for it the
guard `undefined > 0` is false and nothing is re-inserted. -/
def Room.updatePlayerData (room : Room) (sessionId : String) (arg : PlayersArg) (now : Int) : Room :=
  let remaining := mapDelete sessionId room.players
  match arg with
  | .arr playersArray =>
    if 0 < playersArray.length then
      let activePlayersFromOtherSessions :=
        (((remaining.map (·.2)).flatten).filter (·.isActive)).length
      let updatedPlayers := playersArray.map (fun playerData =>
        let canBeActive := decide (activePlayersFromOtherSessions < 4) || playerData.isActive
        { playerData with sessionId := sessionId, isActive := canBeActive, lastUpdated := now })
      { room with players := mapSet sessionId updatedPlayers remaining, lastActivity := now }
    else
      { room with players := remaining, lastActivity := now }
  | .obj _ => { room with players := remaining, lastActivity := now }

/-- Flattening of the players map in insertion order
(`Room.getPlayerData`). -/
def flattenPlayers (m : List (String × List Player)) : List Player :=
  (m.map (·.2)).flatten

/-- `Room.getPlayerData`. -/
def Room.getPlayerData (room : Room) : List Player :=
  flattenPlayers room.players

/-- `Room.getActivePlayerCount`. -/
def Room.getActivePlayerCount (room : Room) : Nat :=
  ((room.getPlayerData).filter (·.isActive)).length

/-- The `/sync-dice` handler on an existing room: refresh the caller's
`lastSeen`, overwrite `currentDiceValues`, append a `dice-roll` event,
then compute `participantCount` for the response (which purges stale
participants). Returns the mutated room and the reported count. -/
def syncDice (room : Room) (sessionId : String) (diceValues : List Nat) (now : Int) (id : Int) :
    Room × Nat :=
  let room1 := room.updateParticipant sessionId now
  let room2 := { room1 with currentDiceValues := some diceValues }
  let room3 := room2.addMessage { payload := .diceRoll diceValues, fromSession := sessionId } now id
  room3.getParticipantCount now

/-- The timer state written by `/sync-timer`: the incoming fields spread
together with the provenance stamps. -/
def mkTimerState (incoming : TimerFields) (sessionId : String) (now : Int) : TimerState :=
  { fields := incoming, lastUpdatedBy := some sessionId, lastUpdatedAt := some now }

/-- The `/sync-timer` handler on an existing room. -/
def syncTimer (room : Room) (sessionId : String) (incoming : TimerFields) (now : Int) (id : Int) :
    Room × Nat :=
  let room1 := room.updateParticipant sessionId now
  let newTimer := mkTimerState incoming sessionId now
  let room2 := { room1 with timerState := newTimer }
  let room3 := room2.addMessage { payload := .timerSync newTimer, fromSession := sessionId } now id
  room3.getParticipantCount now

/-- The per-player object built inside the live `/sync-players` handler:
`sessionId` is stamped, and `isActive` is set to
`room.getActivePlayerCount() < 4 || (room.players.has(sessionId) && room.players.get(sessionId).isActive)`.
`room.players.get(sessionId)` is an array of players, and reading
`.isActive` on an array yields `undefined`, which is falsy, so the right
operand of `&&` is always false here. -/
def stampIncoming (room : Room) (sessionId : String) (playerData : Player) : Player :=
  { playerData with
    sessionId := sessionId
    isActive := decide (room.getActivePlayerCount < 4) || ((mapGet sessionId room.players).isSome && false) }

/-- The `forEach` loop of the live `/sync-players` handler: each incoming
player object is stamped and passed individually (not as an array) to
`Room.updatePlayerData`. -/
def syncPlayersLoop (room : Room) (sessionId : String) (players : List Player) (now : Int) : Room :=
  players.foldl
    (fun r playerData => r.updatePlayerData sessionId (.obj (stampIncoming r sessionId playerData)) now)
    room

/-- The live `/sync-players` handler on an existing room: refresh the
caller's `lastSeen`, run the per-player loop, append a `players-update`
event carrying the full cross-session roster, then compute
`participantCount` for the response. -/
def syncPlayers (room : Room) (sessionId : String) (players : List Player) (now : Int) (id : Int) :
    Room × Nat :=
  let room1 := room.updateParticipant sessionId now
  let room2 := syncPlayersLoop room1 sessionId players now
  let room3 := room2.addMessage
    { payload := .playersUpdate room2.getPlayerData, fromSession := sessionId } now id
  room3.getParticipantCount now

/-- The `/leave-room` handler of the player-management variant on an
existing room: remove the participant (and its players), then append a
`players-update` event with the remaining roster. (The subsequent
empty-room check at the registry level is not modelled here.) -/
def leaveRoom (room : Room) (sessionId : String) (now : Int) (id : Int) : Room :=
  let room1 := room.removeParticipant sessionId now
  room1.addMessage { payload := .playersUpdate room1.getPlayerData, fromSession := sessionId } now id

/-- The JSON body answered by `/poll`. -/
structure PollResponse where
  messages : List Message
  participantCount : Nat
  activePlayerCount : Nat
  currentDiceValues : Option (List Nat)
  timerState : TimerState
  players : List Player
  timestamp : Int
deriving DecidableEq

/-- The `/poll` handler on an existing room: refresh the caller's
`lastSeen`, read the recent events, drop the caller's own events, then
build the response (whose `participantCount` field purges stale
participants) carrying a fresh watermark `timestamp`. -/
def pollRoom (room : Room) (sessionId : String) (since : Option Int) (now : Int) :
    Room × PollResponse :=
  let room1 := room.updateParticipant sessionId now
  let messages := getRecentMessages room1.messages since
  let filteredMessages := messages.filter (fun msg => !(msg.fromSession == sessionId))
  let (room2, participantCount) := room1.getParticipantCount now
  (room2,
    { messages := filteredMessages
      participantCount := participantCount
      activePlayerCount := room2.getActivePlayerCount
      currentDiceValues := room2.currentDiceValues
      timerState := room2.timerState
      players := room2.getPlayerData
      timestamp := now })

/-- One tick of the base pull client's polling loop (`sync-client.js`),
as a transition on `this.pollDelay`: a failed poll multiplies the delay
by 1.5 and caps it at 10000 ms; a successful poll leaves it unchanged
(this variant has no reset). -/
def basePollTick (pollDelay : ℚ) (ok : Bool) : ℚ :=
  if ok then pollDelay else min (pollDelay * (3 / 2)) 10000

/-- One tick of the extended pull client's polling loop (the player
management client), as a transition on `this.pollDelay`: a failed poll
multiplies the delay by 1.5 and caps it at 10000 ms; a successful poll
resets it to the base 2000 ms. -/
def extPollTick (pollDelay : ℚ) (ok : Bool) : ℚ :=
  if ok then 2000 else min (pollDelay * (3 / 2)) 10000

/-- Following the spec's words for claim C2: `activeFromOtherSessions`
is the number of active PlayerRecords not owned by `sessionId` at the
start of the call. -/
def specActiveFromOtherSessions (room : Room) (sessionId : String) : Nat :=
  ((flattenPlayers (room.players.filter (fun kv => !(kv.1 == sessionId)))).filter (·.isActive)).length

/-- One step of the 5-session scenario of claim C1: the session joins
and then submits a single-record roster whose payload claims
`isActive = true` (the array-based `updatePlayers` action). -/
def capStep (room : Room) (sessionId : String) : Room :=
  (room.addParticipant sessionId "ua" "ip" 0).updatePlayerData sessionId
    (.arr [{ name := sessionId, isActive := true, sessionId := "", lastUpdated := 0 }]) 0

/-- The 5-session scenario of claim C1, run to the end. -/
def capScenario : Room :=
  ["s1", "s2", "s3", "s4", "s5"].foldl capStep (Room.new "CAP" 0)

/-- A room whose session `other` already owns four active PlayerRecords
(the contention state of claim C2). -/
def c2Room : Room :=
  { Room.new "R" 0 with players := [("other",
      [ { name := "a", isActive := true, sessionId := "other", lastUpdated := 0 },
        { name := "b", isActive := true, sessionId := "other", lastUpdated := 0 },
        { name := "c", isActive := true, sessionId := "other", lastUpdated := 0 },
        { name := "d", isActive := true, sessionId := "other", lastUpdated := 0 } ])] }

/-- A roster submission of one record whose payload claims
`isActive = true`, from a session that owned nothing before. -/
def c2Incoming : List Player :=
  [{ name := "x", isActive := true, sessionId := "", lastUpdated := 0 }]

/-- A room with two participants `s1` and `s2` (claim C7's scenario). -/
def demoRoom : Room :=
  ((Room.new "DEMO" 0).addParticipant "s1" "ua" "ip" 0).addParticipant "s2" "ua" "ip" 0

/-- The room of claim C7's scenario after `s1` records the dice roll
`[3, 5]`. -/
def demoAfterRoll : Room := (syncDice demoRoom "s1" [3, 5] 100 7).1

/-- A room whose only participant is `s1`; the session `ghost` is not a
participant (claim C4's scenario). -/
def c4Room : Room := (Room.new "R4" 0).addParticipant "s1" "ua" "ip" 0

/-! Helper lemmas about the association-list model of JavaScript maps. -/

theorem find?_filter_of_imp {α : Type} (p q : α → Bool)
    (l : List α) (h : ∀ x, p x = true → q x = true) :
    (l.filter q).find? p = l.find? p := by
  induction l with
  | nil => rfl
  | cons a t ih =>
    rw [List.filter_cons]
    by_cases hq : q a = true
    · rw [if_pos hq]
      cases hp : p a with
      | true => rw [List.find?_cons_of_pos _ hp, List.find?_cons_of_pos _ hp]
      | false => rw [List.find?_cons_of_neg _ (by simp [hp]), List.find?_cons_of_neg _ (by simp [hp]), ih]
    · have hp : p a = false := by
        cases hpa : p a
        · rfl
        · exact absurd (h a hpa) hq
      rw [if_neg hq, ih, List.find?_cons_of_neg _ (by simp [hp])]

theorem mapGet_filter_of_imp {α : Type} (k : String) (m : List (String × α))
    (q : String × α → Bool) (h : ∀ kv : String × α, kv.1 = k → q kv = true) :
    mapGet k (m.filter q) = mapGet k m := by
  unfold mapGet
  rw [find?_filter_of_imp]
  intro kv hkv
  exact h kv (by simpa using hkv)

theorem mapGet_none_iff {α : Type} (k : String) (m : List (String × α)) :
    mapGet k m = none ↔ ∀ kv ∈ m, ¬ kv.1 = k := by
  unfold mapGet
  rw [Option.map_eq_none', List.find?_eq_none]
  constructor
  · intro h kv hkv
    simpa using h kv hkv
  · intro h kv hkv
    simpa using h kv hkv

theorem mapGet_none_filter {α : Type} (k : String) (m : List (String × α))
    (q : String × α → Bool) (h : mapGet k m = none) :
    mapGet k (m.filter q) = none := by
  rw [mapGet_none_iff] at h ⊢
  intro kv hkv
  exact h kv (List.mem_filter.mp hkv).1

theorem mapGet_delete_self {α : Type} (k : String) (m : List (String × α)) :
    mapGet k (mapDelete k m) = none := by
  rw [mapGet_none_iff]
  intro kv hkv heq
  have := (List.mem_filter.mp hkv).2
  simp [heq] at this

theorem mapGet_delete_ne {α : Type} (k s : String) (m : List (String × α)) (h : s ≠ k) :
    mapGet s (mapDelete k m) = mapGet s m := by
  refine mapGet_filter_of_imp s m _ ?_
  intro kv hkv
  simp [hkv, h]

theorem mapDelete_idem {α : Type} (k : String) (m : List (String × α)) :
    mapDelete k (mapDelete k m) = mapDelete k m := by
  simp [mapDelete, List.filter_filter]

theorem mapDelete_of_get_none {α : Type} (k : String) (m : List (String × α))
    (h : mapGet k m = none) : mapDelete k m = m := by
  rw [mapGet_none_iff] at h
  refine List.filter_eq_self.mpr ?_
  intro kv hkv
  simp [h kv hkv]

theorem any_eq_false_of_get_none {α : Type} (k : String) (m : List (String × α))
    (h : mapGet k m = none) : m.any (fun kv => kv.1 == k) = false := by
  rw [mapGet_none_iff] at h
  rw [List.any_eq_false]
  intro kv hkv
  simp [h kv hkv]

theorem any_delete_self {α : Type} (k : String) (m : List (String × α)) :
    (mapDelete k m).any (fun kv => kv.1 == k) = false :=
  any_eq_false_of_get_none k _ (mapGet_delete_self k m)

theorem mapGet_set_self {α : Type} (k : String) (v : α) (m : List (String × α))
    (h : m.any (fun kv => kv.1 == k) = false) :
    mapGet k (mapSet k v m) = some v := by
  unfold mapSet
  rw [if_neg (by simp [h])]
  unfold mapGet
  rw [List.find?_append]
  have hm : m.find? (fun kv => kv.1 == k) = none := by
    rw [List.find?_eq_none]
    intro kv hkv
    have := List.any_eq_false.mp h kv hkv
    simpa using this
  simp [hm]

theorem mapGet_set_ne {α : Type} (k : String) (v : α) (m : List (String × α)) (s : String)
    (hs : s ≠ k) (h : m.any (fun kv => kv.1 == k) = false) :
    mapGet s (mapSet k v m) = mapGet s m := by
  unfold mapSet
  rw [if_neg (by simp [h])]
  unfold mapGet
  rw [List.find?_append]
  have hone : ([(k, v)].find? (fun kv => kv.1 == s)) = none := by
    rw [List.find?_eq_none]
    intro kv hkv
    simp at hkv
    simp [hkv, Ne.symm hs]
  simp [hone]

/-! Helper lemmas about the room operations. -/

theorem updateParticipant_messages (room : Room) (s : String) (now : Int) :
    (room.updateParticipant s now).messages = room.messages := by
  unfold Room.updateParticipant
  split <;> rfl

theorem updateParticipant_players (room : Room) (s : String) (now : Int) :
    (room.updateParticipant s now).players = room.players := by
  unfold Room.updateParticipant
  split <;> rfl

theorem updateParticipant_of_get_none (room : Room) (s : String) (now : Int)
    (h : mapGet s room.participants = none) :
    room.updateParticipant s now = room := by
  unfold Room.updateParticipant
  rw [if_neg]
  simp [any_eq_false_of_get_none s _ h]

theorem updatePlayerData_obj_players (room : Room) (s : String) (p : Player) (now : Int) :
    (room.updatePlayerData s (.obj p) now).players = mapDelete s room.players := rfl

theorem updatePlayerData_messages (room : Room) (s : String) (arg : PlayersArg) (now : Int) :
    (room.updatePlayerData s arg now).messages = room.messages := by
  unfold Room.updatePlayerData
  cases arg
  · dsimp only
    split <;> rfl
  · rfl

theorem syncPlayersLoop_cons (room : Room) (s : String) (p : Player) (t : List Player) (now : Int) :
    syncPlayersLoop room s (p :: t) now =
      syncPlayersLoop (room.updatePlayerData s (.obj (stampIncoming room s p)) now) s t now := rfl

theorem syncPlayersLoop_messages (room : Room) (s : String) (ps : List Player) (now : Int) :
    (syncPlayersLoop room s ps now).messages = room.messages := by
  induction ps generalizing room with
  | nil => rfl
  | cons p t ih =>
    rw [syncPlayersLoop_cons, ih, updatePlayerData_messages]

theorem syncPlayersLoop_players (room : Room) (s : String) (ps : List Player) (now : Int)
    (h : ps ≠ []) :
    (syncPlayersLoop room s ps now).players = mapDelete s room.players := by
  induction ps generalizing room with
  | nil => exact absurd rfl h
  | cons p t ih =>
    rw [syncPlayersLoop_cons]
    cases t with
    | nil => rfl
    | cons q u =>
      rw [ih _ (by simp), updatePlayerData_obj_players, mapDelete_idem]

/-! The claims. -/

/-- C1: FAILS ON THE CODE (code bug). The spec claims that at most 4
PlayerRecords of a room are ever active, and that when 5 sessions each
submit one active PlayerRecord in sequence the 5th is stored inactive.
In `Room.updatePlayerData` the activation decision is
`(activePlayersFromOtherSessions < 4) || playerData.isActive`, where
`playerData` is the incoming payload (the session's previous entry was
already deleted), so a record whose payload claims `isActive = true` is
stored active even at the cap: after the 5-session scenario all 5
records are active, and in particular the 5th one is. -/
theorem dddC1 :
    capScenario.getActivePlayerCount = 5 ∧
    (mapGet "s5" capScenario.players).map (fun l => l.map (·.isActive)) = some [true] := by
  constructor
  · rfl
  · rfl

/-- C2 (counterexample): the claim says an incoming record is stored
active ONLY IF fewer than 4 records of other sessions are active or the
record was already active for this session before the call. In `c2Room`
the other session owns 4 active records and the caller `me` owns
nothing, yet its submitted record (payload `isActive = true`) is stored
active — refuting the claim at this concrete input. -/
theorem dddC2counter :
    specActiveFromOtherSessions c2Room "me" = 4 ∧
    ¬ specActiveFromOtherSessions c2Room "me" < 4 ∧
    mapGet "me" c2Room.players = none ∧
    (mapGet "me" (c2Room.updatePlayerData "me" (.arr c2Incoming) 5).players).map
        (fun l => l.map (·.isActive)) = some [true] := by
  refine ⟨rfl, by decide, rfl, rfl⟩

/-- C2 (amended): each incoming record is stored with
`isActive = (activeFromOtherSessions < 4) || (the record's own incoming
isActive flag)`; the session's previous roster is deleted before the
check and plays no role. Stated through the spec-side count
`specActiveFromOtherSessions` (active records not owned by the caller at
the start of the call), which the code's post-delete count coincides
with. -/
theorem dddC2 (room : Room) (sessionId : String) (l : List Player) (now : Int) (h : l ≠ []) :
    mapGet sessionId (room.updatePlayerData sessionId (.arr l) now).players =
      some (l.map (fun p =>
        { p with
          sessionId := sessionId
          isActive := decide (specActiveFromOtherSessions room sessionId < 4) || p.isActive
          lastUpdated := now })) := by
  have hlen : 0 < l.length := List.length_pos.mpr h
  unfold Room.updatePlayerData
  dsimp only
  rw [if_pos hlen]
  rw [mapGet_set_self _ _ _ (any_delete_self _ _)]
  rfl

/-- Witness for C2's amended theorem at the concrete contention state. -/
theorem dddC2_witness :
    mapGet "me" (c2Room.updatePlayerData "me" (.arr c2Incoming) 5).players =
      some (c2Incoming.map (fun p =>
        { p with
          sessionId := "me"
          isActive := decide (specActiveFromOtherSessions c2Room "me" < 4) || p.isActive
          lastUpdated := 5 })) :=
  dddC2 c2Room "me" c2Incoming 5 (by decide)

/-- C9: `updatePlayers(sessionA, ...)` (through `Room.updatePlayerData`,
with either an array or a single-object argument) never alters, removes
or re-owns the PlayerRecords of a different session: the players-map
lookup of every other session is unchanged. -/
theorem dddC9 (room : Room) (sessionA : String) (arg : PlayersArg) (now : Int) (s : String)
    (h : s ≠ sessionA) :
    mapGet s (room.updatePlayerData sessionA arg now).players = mapGet s room.players := by
  cases arg with
  | obj p =>
    rw [updatePlayerData_obj_players]
    exact mapGet_delete_ne _ _ _ h
  | arr l =>
    unfold Room.updatePlayerData
    dsimp only
    split
    · rw [mapGet_set_ne _ _ _ _ h (any_delete_self _ _)]
      exact mapGet_delete_ne _ _ _ h
    · exact mapGet_delete_ne _ _ _ h

/-- Witness for C9 at a concrete other session. -/
theorem dddC9_witness :
    mapGet "other" (c2Room.updatePlayerData "me" (.arr c2Incoming) 5).players =
      mapGet "other" c2Room.players :=
  dddC9 c2Room "me" (.arr c2Incoming) 5 "other" (by decide)

/-- C5: `getRecentMessages` with no watermark returns the last 10
events; with a watermark `t` it returns exactly the events with
`timestamp > t`, in original append order (a sublist of the log); and it
is a pure function of the log, so two calls with the same watermark and
no intervening append agree definitionally. -/
theorem dddC5 (messages : List Message) (t : Int) (since : Option Int) :
    getRecentMessages messages none = messages.drop (messages.length - 10) ∧
    getRecentMessages messages (some t) = messages.filter (fun m => decide (t < m.timestamp)) ∧
    (getRecentMessages messages since).Sublist messages ∧
    (∀ m : Message, m ∈ getRecentMessages messages (some t) ↔ m ∈ messages ∧ t < m.timestamp) := by
  refine ⟨rfl, rfl, ?_, ?_⟩
  · cases since with
    | none => exact List.drop_sublist _ _
    | some t' => exact List.filter_sublist _
  · intro m
    simp [getRecentMessages, List.mem_filter]

/-- C6: after any `addMessage` the log holds at most 50 entries, and
appending to a log of exactly 50 drops the oldest entry, keeping the 50
newest in order with the new entry last. -/
theorem dddC6 (messages : List Message) (stub : MsgStub) (now : Int) (id : Int) :
    (pushTrim messages (mkMessage stub now id)).length ≤ 50 ∧
    (messages.length = 50 →
      pushTrim messages (mkMessage stub now id) =
        messages.drop 1 ++ [mkMessage stub now id]) := by
  constructor
  · unfold pushTrim
    dsimp only
    split
    · rw [List.length_drop]
      omega
    · simp only [List.length_append, List.length_singleton] at *
      omega
  · intro h50
    unfold pushTrim
    dsimp only
    rw [if_pos (by simp [h50])]
    rw [List.drop_append_eq_append_drop]
    simp [h50]

/-- Witness for C6's 50-entry case on a concrete full log. -/
theorem dddC6_witness :
    (List.replicate 50 (mkMessage { payload := .diceRoll [], fromSession := "" } 0 0)).length = 50 ∧
    pushTrim (List.replicate 50 (mkMessage { payload := .diceRoll [], fromSession := "" } 0 0))
        (mkMessage { payload := .diceRoll [], fromSession := "" } 0 0) =
      (List.replicate 50 (mkMessage { payload := .diceRoll [], fromSession := "" } 0 0)).drop 1 ++
        [mkMessage { payload := .diceRoll [], fromSession := "" } 0 0] :=
  ⟨by simp, (dddC6 (List.replicate 50 (mkMessage { payload := .diceRoll [], fromSession := "" } 0 0))
      { payload := .diceRoll [], fromSession := "" } 0 0).2 (by simp)⟩

theorem getParticipantCount_fst_messages (room : Room) (now : Int) :
    ((room.getParticipantCount now).1).messages = room.messages := rfl

theorem getParticipantCount_fst_players (room : Room) (now : Int) :
    ((room.getParticipantCount now).1).players =
      room.players.filter (fun kv =>
        !(((room.participants.filter
              (fun kv => decide (kv.2.lastSeen < staleThreshold now))).map (·.1)).contains kv.1)) := rfl

theorem addMessage_players (room : Room) (stub : MsgStub) (now : Int) (id : Int) :
    (room.addMessage stub now id).players = room.players := rfl

theorem addMessage_messages (room : Room) (stub : MsgStub) (now : Int) (id : Int) :
    (room.addMessage stub now id).messages = pushTrim room.messages (mkMessage stub now id) := rfl

/-- C3: in the player-management handler, a `/sync-players` request with
a non-empty `players` array leaves the calling session owning zero
PlayerRecords — each player object is passed individually to
`updatePlayerData`, whose `playersArray && playersArray.length > 0`
guard is false for a single object, so the session's entry is deleted
and never re-inserted — and the appended `players-update` event carries
the roster of the other sessions only. -/
theorem dddC3 (room : Room) (sessionId : String) (ps : List Player) (now : Int) (id : Int)
    (h : ps ≠ []) :
    mapGet sessionId (syncPlayers room sessionId ps now id).1.players = none ∧
    (syncPlayers room sessionId ps now id).1.messages =
      pushTrim room.messages
        (mkMessage
          { payload := .playersUpdate (flattenPlayers (mapDelete sessionId room.players))
            fromSession := sessionId } now id) := by
  have hp2 : (syncPlayersLoop (room.updateParticipant sessionId now) sessionId ps now).players =
      mapDelete sessionId room.players := by
    rw [syncPlayersLoop_players _ _ _ _ h, updateParticipant_players]
  have hm2 : (syncPlayersLoop (room.updateParticipant sessionId now) sessionId ps now).messages =
      room.messages := by
    rw [syncPlayersLoop_messages, updateParticipant_messages]
  unfold syncPlayers
  dsimp only
  constructor
  · rw [getParticipantCount_fst_players]
    refine mapGet_none_filter _ _ _ ?_
    rw [addMessage_players, hp2]
    exact mapGet_delete_self _ _
  · rw [getParticipantCount_fst_messages, addMessage_messages, hm2]
    have hroster : (syncPlayersLoop (room.updateParticipant sessionId now) sessionId ps now).getPlayerData =
        flattenPlayers (mapDelete sessionId room.players) := by
      unfold Room.getPlayerData
      rw [hp2]
    rw [hroster]

/-- Witness for C3 on a concrete room and non-empty submission. -/
theorem dddC3_witness :
    mapGet "s1" (syncPlayers c4Room "s1" c2Incoming 10 9).1.players = none ∧
    (syncPlayers c4Room "s1" c2Incoming 10 9).1.messages =
      pushTrim c4Room.messages
        (mkMessage
          { payload := .playersUpdate (flattenPlayers (mapDelete "s1" c4Room.players))
            fromSession := "s1" } 10 9) :=
  dddC3 c4Room "s1" c2Incoming 10 9 (by decide)

/-- C4 (counterexample): the claim says `sync-dice` from a sessionId
absent from `participants` does not mutate `diceState` and does not
append an event. On `c4Room` (whose only participant is `s1`), a
`sync-dice` from the unknown session `ghost` overwrites
`currentDiceValues` and appends a `dice-roll` event. -/
theorem dddC4counter :
    mapGet "ghost" c4Room.participants = none ∧
    c4Room.currentDiceValues = none ∧
    c4Room.messages = [] ∧
    (syncDice c4Room "ghost" [6] 10 1).1.currentDiceValues = some [6] ∧
    (syncDice c4Room "ghost" [6] 10 1).1.messages =
      [mkMessage { payload := .diceRoll [6], fromSession := "ghost" } 10 1] :=
  ⟨rfl, rfl, rfl, rfl, rfl⟩

/-- C4 (amended): for a sessionId absent from `participants`, only the
`lastSeen` refresh (`updateParticipant`) is skipped. `sync-dice`,
`sync-timer` and `sync-players` still overwrite the dice state, replace
the timer state, and append their event; `leave` removes no participant
but (in the player-management variant) still appends a `players-update`
event, so it is not a silent no-op either. Operations on a nonexistent
room do report "not found" (not modelled here: the registry filters
before any of these run). -/
theorem dddC4 (room : Room) (sessionId : String) (v : List Nat) (tf : TimerFields)
    (ps : List Player) (now : Int) (id : Int)
    (h : mapGet sessionId room.participants = none) :
    room.updateParticipant sessionId now = room ∧
    (syncDice room sessionId v now id).1.currentDiceValues = some v ∧
    (syncDice room sessionId v now id).1.messages =
      pushTrim room.messages (mkMessage { payload := .diceRoll v, fromSession := sessionId } now id) ∧
    (syncTimer room sessionId tf now id).1.timerState = mkTimerState tf sessionId now ∧
    (syncTimer room sessionId tf now id).1.messages =
      pushTrim room.messages
        (mkMessage { payload := .timerSync (mkTimerState tf sessionId now), fromSession := sessionId } now id) ∧
    (syncPlayers room sessionId ps now id).1.messages =
      pushTrim room.messages
        (mkMessage
          { payload := .playersUpdate (flattenPlayers ((syncPlayersLoop room sessionId ps now).players))
            fromSession := sessionId } now id) ∧
    (leaveRoom room sessionId now id).participants = room.participants ∧
    (leaveRoom room sessionId now id).messages =
      pushTrim room.messages
        (mkMessage
          { payload := .playersUpdate (flattenPlayers (mapDelete sessionId room.players))
            fromSession := sessionId } now id) := by
  have h0 := updateParticipant_of_get_none room sessionId now h
  refine ⟨h0, rfl, ?_, rfl, ?_, ?_, ?_, rfl⟩
  · show pushTrim (room.updateParticipant sessionId now).messages
        (mkMessage { payload := .diceRoll v, fromSession := sessionId } now id) = _
    rw [updateParticipant_messages]
  · show pushTrim (room.updateParticipant sessionId now).messages
        (mkMessage { payload := .timerSync (mkTimerState tf sessionId now), fromSession := sessionId } now id) = _
    rw [updateParticipant_messages]
  · unfold syncPlayers
    dsimp only
    rw [h0, getParticipantCount_fst_messages, addMessage_messages, syncPlayersLoop_messages]
    rfl
  · show mapDelete sessionId room.participants = room.participants
    exact mapDelete_of_get_none _ _ h

/-- Witness for C4's amended theorem: the unknown session `ghost` on
`c4Room`. -/
theorem dddC4_witness :
    c4Room.updateParticipant "ghost" 10 = c4Room ∧
    (syncDice c4Room "ghost" [6] 10 1).1.currentDiceValues = some [6] :=
  let full := dddC4 c4Room "ghost" [6]
    { isRunning := false, remainingTime := 0, duration := 60, startTime := none }
    c2Incoming 10 1 rfl
  ⟨full.1, full.2.1⟩

/-- C7: the `/poll` response's messages are exactly
`recentEvents(since)` with every event whose `fromSession` equals the
caller removed, and the response carries the fresh watermark `now`; in
particular, on the concrete scenario where `s1` recorded the dice roll
`[3, 5]`, `s1` polling with no watermark receives nothing while `s2`
receives the dice-roll event. -/
theorem dddC7 (room : Room) (sessionId : String) (since : Option Int) (now : Int) :
    (pollRoom room sessionId since now).2.messages =
      (getRecentMessages room.messages since).filter (fun msg => !(msg.fromSession == sessionId)) ∧
    (pollRoom room sessionId since now).2.timestamp = now ∧
    (pollRoom demoAfterRoll "s1" none 200).2.messages = [] ∧
    (pollRoom demoAfterRoll "s2" none 200).2.messages =
      [mkMessage { payload := .diceRoll [3, 5], fromSession := "s1" } 100 7] := by
  refine ⟨?_, rfl, rfl, rfl⟩
  show (getRecentMessages (room.updateParticipant sessionId now).messages since).filter
      (fun msg => !(msg.fromSession == sessionId)) = _
  rw [updateParticipant_messages]

/-- C8: `getParticipantCount` removes exactly the participants whose
`lastSeen` is more than 5 minutes before `now` (strictly before
`now - 300000`), removes those sessions' player data with them, and
returns the number of participants whose `lastSeen` is within the
5-minute window — so on every reachable participants map it counts
precisely the non-stale sessions at query time. -/
theorem dddC8 (room : Room) (now : Int) :
    (room.getParticipantCount now).2 =
      (room.participants.filter (fun kv => decide (staleThreshold now ≤ kv.2.lastSeen))).length ∧
    ((room.getParticipantCount now).1).participants =
      room.participants.filter (fun kv => decide (staleThreshold now ≤ kv.2.lastSeen)) ∧
    ∀ s : String,
      mapGet s ((room.getParticipantCount now).1).players =
        if room.participants.any (fun kv => kv.1 == s && decide (kv.2.lastSeen < staleThreshold now))
        then none
        else mapGet s room.players := by
  have hfilter : room.participants.filter (fun kv => !decide (kv.2.lastSeen < staleThreshold now)) =
      room.participants.filter (fun kv => decide (staleThreshold now ≤ kv.2.lastSeen)) := by
    refine List.filter_congr ?_
    intro kv _
    by_cases hlt : kv.2.lastSeen < staleThreshold now
    · simp [hlt, not_le.mpr hlt]
    · simp [hlt, not_lt.mp hlt]
  refine ⟨?_, ?_, ?_⟩
  · show (room.participants.filter (fun kv => !decide (kv.2.lastSeen < staleThreshold now))).length = _
    rw [hfilter]
  · show room.participants.filter (fun kv => !decide (kv.2.lastSeen < staleThreshold now)) = _
    exact hfilter
  · intro s
    rw [getParticipantCount_fst_players]
    by_cases hs : room.participants.any
        (fun kv => kv.1 == s && decide (kv.2.lastSeen < staleThreshold now)) = true
    · rw [if_pos hs]
      rw [List.any_eq_true] at hs
      obtain ⟨pv, hpv, hcond⟩ := hs
      rw [Bool.and_eq_true] at hcond
      obtain ⟨hkey, hstale⟩ := hcond
      have hkey' : pv.1 = s := by simpa using hkey
      have hmem : s ∈ (room.participants.filter
          (fun kv => decide (kv.2.lastSeen < staleThreshold now))).map (·.1) :=
        List.mem_map.mpr ⟨pv, List.mem_filter.mpr ⟨hpv, hstale⟩, hkey'⟩
      rw [mapGet_none_iff]
      intro kv hkv hk1
      have hkeep := (List.mem_filter.mp hkv).2
      rw [hk1] at hkeep
      simp [hmem] at hkeep
    · rw [if_neg hs]
      have hnotmem : ¬ s ∈ (room.participants.filter
          (fun kv => decide (kv.2.lastSeen < staleThreshold now))).map (·.1) := by
        intro hmem
        obtain ⟨pv, hpv, hkey⟩ := List.mem_map.mp hmem
        obtain ⟨hpmem, hstale⟩ := List.mem_filter.mp hpv
        exact hs (List.any_eq_true.mpr ⟨pv, hpmem, by simp [hkey, hstale]⟩)
      refine mapGet_filter_of_imp s _ _ ?_
      intro kv hk1
      rw [hk1]
      simp [hnotmem]

/-- C10 (counterexample): in the base pull client (`sync-client.js`) a
successful poll does not reset `pollDelay`: after one failure the delay
is 3000 ms and the next success leaves it at 3000 ms, not the base
2000 ms claimed. -/
theorem dddC10counter :
    basePollTick (basePollTick 2000 false) true = 3000 ∧ (3000 : ℚ) ≠ 2000 := by
  constructor
  · show min ((2000 : ℚ) * (3 / 2)) 10000 = 3000
    norm_num [min_def]
  · norm_num

/-- C10 (amended): the backoff discipline holds of the extended pull
client: each failed poll tick multiplies the stored `pollDelay` by 1.5
capped at 10000 ms, a successful tick resets it to the base 2000 ms, and
the delay stays inside the band from 2 s to 10 s; the base pull client
performs the same failure backoff but never resets the delay on
success. -/
theorem dddC10 (d : ℚ) (ok : Bool) (h1 : 2000 ≤ d) :
    extPollTick d false = min (d * (3 / 2)) 10000 ∧
    extPollTick d true = 2000 ∧
    basePollTick d false = min (d * (3 / 2)) 10000 ∧
    basePollTick d true = d ∧
    2000 ≤ extPollTick d ok ∧ extPollTick d ok ≤ 10000 := by
  refine ⟨rfl, rfl, rfl, rfl, ?_, ?_⟩
  · cases ok with
    | true =>
      show (2000 : ℚ) ≤ 2000
      norm_num
    | false =>
      show (2000 : ℚ) ≤ min (d * (3 / 2)) 10000
      refine le_min ?_ (by norm_num)
      linarith
  · cases ok with
    | true =>
      show (2000 : ℚ) ≤ 10000
      norm_num
    | false =>
      show min (d * (3 / 2)) 10000 ≤ 10000
      exact min_le_right _ _

/-- Witness for C10's amended theorem at the base delay on a failed
tick. -/
theorem dddC10_witness :
    extPollTick 2000 false = min ((2000 : ℚ) * (3 / 2)) 10000 ∧
    extPollTick 2000 true = 2000 ∧
    basePollTick 2000 false = min ((2000 : ℚ) * (3 / 2)) 10000 ∧
    basePollTick 2000 true = 2000 ∧
    2000 ≤ extPollTick 2000 false ∧ extPollTick 2000 false ≤ 10000 :=
  dddC10 2000 false (by norm_num)
